import Mathlib

/-!
Verification of the bridge core of `src/app.py` (File Bridge Relay).

The development shallowly embeds the parts of `app.py` that the claims
touch:

* byte strings are `List Nat` (each entry a byte value `< 256`), text is
  `String` / `List Char`, and Python's `str.encode("utf-8")` /
  `bytes.decode("utf-8")` are modelled by an explicit UTF-8 codec;
* `json.loads` (used only through `json_loads_safe`, app.py lines
  182-187) is modelled by an executable recursive-descent JSON reader;
  its number grammar is restricted to integers (fractional / exponent
  literals are outside the model) and `\u` escapes are not combined
  into surrogate pairs — no claim depends on these corners;
* the module-level dictionaries `agents`, `locks` and `response_futures`
  become a `BridgeState` of functional maps, and the coroutine
  `agent_call` (lines 99-129) becomes a function from a state, the call
  arguments and an `AwaitOutcome` oracle (what the 120-unit await at
  line 120 observes) to its result, final state and sent frames;
* the read loop and the `finally` block of `ws_endpoint`
  (lines 61-97) become the functions `readLoopBody` and `wsCleanup`;
* the interleaving of two concurrent `agent_call`s on one token is a
  small-step transition system `PStep` over `PairState`.
-/

/-! ## UTF-8 codec (model of Python `str.encode("utf-8")` / `bytes.decode("utf-8")`) -/

/-- Encode one scalar value as UTF-8 bytes, written with `/` and `%` so that
the byte-range arithmetic is visible to `omega`. -/
def utf8EncodeChar (c : Char) : List Nat :=
  if c.toNat < 0x80 then [c.toNat]
  else if c.toNat < 0x800 then [0xC0 + c.toNat / 64, 0x80 + c.toNat % 64]
  else if c.toNat < 0x10000 then
    [0xE0 + c.toNat / 4096, 0x80 + (c.toNat / 64) % 64, 0x80 + c.toNat % 64]
  else
    [0xF0 + c.toNat / 262144, 0x80 + (c.toNat / 4096) % 64,
      0x80 + (c.toNat / 64) % 64, 0x80 + c.toNat % 64]

/-- Encode a character list as UTF-8 bytes. -/
def utf8Encode : List Char → List Nat
  | [] => []
  | c :: cs => utf8EncodeChar c ++ utf8Encode cs

/-- Bytes of a Python `str` under `.encode("utf-8")`. -/
def strBytes (s : String) : List Nat := utf8Encode s.data

/-- Continuation byte test (`0x80 ≤ b < 0xC0`). -/
def isCont (b : Nat) : Bool := 0x80 ≤ b && b < 0xC0

/-- Decode one UTF-8 sequence (strict, as Python's `"utf-8"` codec:
overlong forms, surrogates and values above `0x10FFFF` are rejected). -/
def utf8DecodeChar : List Nat → Option (Char × List Nat)
  | [] => none
  | b0 :: t0 =>
    if b0 < 0x80 then some (Char.ofNat b0, t0)
    else if b0 < 0xC2 then none
    else if b0 < 0xE0 then
      match t0 with
      | b1 :: t1 =>
        if isCont b1 then some (Char.ofNat ((b0 - 0xC0) * 64 + (b1 - 0x80)), t1)
        else none
      | [] => none
    else if b0 < 0xF0 then
      match t0 with
      | b1 :: b2 :: t2 =>
        if isCont b1 && isCont b2 then
          if (b0 - 0xE0) * 4096 + (b1 - 0x80) * 64 + (b2 - 0x80) < 0x800
              ∨ (0xD800 ≤ (b0 - 0xE0) * 4096 + (b1 - 0x80) * 64 + (b2 - 0x80)
                  ∧ (b0 - 0xE0) * 4096 + (b1 - 0x80) * 64 + (b2 - 0x80) ≤ 0xDFFF) then none
          else some (Char.ofNat ((b0 - 0xE0) * 4096 + (b1 - 0x80) * 64 + (b2 - 0x80)), t2)
        else none
      | _ => none
    else if b0 < 0xF5 then
      match t0 with
      | b1 :: b2 :: b3 :: t3 =>
        if isCont b1 && isCont b2 && isCont b3 then
          if (b0 - 0xF0) * 262144 + (b1 - 0x80) * 4096 + (b2 - 0x80) * 64 + (b3 - 0x80) < 0x10000
              ∨ 0x110000 ≤ (b0 - 0xF0) * 262144 + (b1 - 0x80) * 4096 + (b2 - 0x80) * 64
                  + (b3 - 0x80) then none
          else some (Char.ofNat ((b0 - 0xF0) * 262144 + (b1 - 0x80) * 4096 + (b2 - 0x80) * 64
              + (b3 - 0x80)), t3)
        else none
      | _ => none
    else none

/-- Fuel-driven decode loop (the fuel is an upper bound on the number of
decoded characters, so `l.length` always suffices). -/
def utf8DecodeLoop : Nat → List Nat → Option (List Char)
  | _, [] => some []
  | 0, _ :: _ => none
  | fuel + 1, b :: t =>
    match utf8DecodeChar (b :: t) with
    | some (c, rest) => (utf8DecodeLoop fuel rest).map (c :: ·)
    | none => none

/-- Decode a whole byte string, `none` on invalid UTF-8 (Python raises
`UnicodeDecodeError` there, which `json_loads_safe` turns into the sentinel). -/
def utf8Decode (l : List Nat) : Option (List Char) := utf8DecodeLoop l.length l

theorem utf8EncodeChar_ne_nil (c : Char) : utf8EncodeChar c ≠ [] := by
  unfold utf8EncodeChar
  split_ifs <;> simp

theorem char_valid_ranges (c : Char) :
    c.toNat < 0xd800 ∨ (0xdfff < c.toNat ∧ c.toNat < 0x110000) := by
  have h := c.valid
  unfold UInt32.isValidChar Nat.isValidChar at h
  exact h

theorem utf8EncodeChar_one (c : Char) (h : c.toNat < 0x80) :
    utf8EncodeChar c = [c.toNat] := by
  unfold utf8EncodeChar; rw [if_pos h]

theorem utf8EncodeChar_two (c : Char) (h1 : 0x80 ≤ c.toNat) (h2 : c.toNat < 0x800) :
    utf8EncodeChar c = [0xC0 + c.toNat / 64, 0x80 + c.toNat % 64] := by
  unfold utf8EncodeChar; rw [if_neg (by omega), if_pos h2]

theorem utf8EncodeChar_three (c : Char) (h1 : 0x800 ≤ c.toNat) (h2 : c.toNat < 0x10000) :
    utf8EncodeChar c
      = [0xE0 + c.toNat / 4096, 0x80 + (c.toNat / 64) % 64, 0x80 + c.toNat % 64] := by
  unfold utf8EncodeChar; rw [if_neg (by omega), if_neg (by omega), if_pos h2]

theorem utf8EncodeChar_four (c : Char) (h1 : 0x10000 ≤ c.toNat) :
    utf8EncodeChar c
      = [0xF0 + c.toNat / 262144, 0x80 + (c.toNat / 4096) % 64,
          0x80 + (c.toNat / 64) % 64, 0x80 + c.toNat % 64] := by
  unfold utf8EncodeChar; rw [if_neg (by omega), if_neg (by omega), if_neg (by omega)]

theorem utf8DecodeChar_encode (c : Char) (r : List Nat) :
    utf8DecodeChar (utf8EncodeChar c ++ r) = some (c, r) := by
  have hv := char_valid_ranges c
  have hofn := Char.ofNat_toNat c
  rcases Nat.lt_or_ge c.toNat 0x80 with h1 | h1
  · rw [utf8EncodeChar_one c h1]
    simp only [List.cons_append, List.nil_append, utf8DecodeChar]
    rw [if_pos h1, hofn]
  · rcases Nat.lt_or_ge c.toNat 0x800 with h2 | h2
    · rw [utf8EncodeChar_two c h1 h2]
      simp only [List.cons_append, List.nil_append, utf8DecodeChar, isCont,
        Bool.and_eq_true, decide_eq_true_eq]
      split_ifs <;> try (exfalso; omega)
      have he : (0xC0 + c.toNat / 64 - 0xC0) * 64 + (0x80 + c.toNat % 64 - 0x80)
          = c.toNat := by omega
      rw [he, hofn]
    · rcases Nat.lt_or_ge c.toNat 0x10000 with h3 | h3
      · rw [utf8EncodeChar_three c h2 h3]
        simp only [List.cons_append, List.nil_append, utf8DecodeChar, isCont,
          Bool.and_eq_true, decide_eq_true_eq]
        split_ifs <;> try (exfalso; omega)
        have he : (0xE0 + c.toNat / 4096 - 0xE0) * 4096
            + (0x80 + (c.toNat / 64) % 64 - 0x80) * 64
            + (0x80 + c.toNat % 64 - 0x80) = c.toNat := by omega
        rw [he, hofn]
      · rw [utf8EncodeChar_four c h3]
        simp only [List.cons_append, List.nil_append, utf8DecodeChar, isCont,
          Bool.and_eq_true, decide_eq_true_eq]
        split_ifs <;> try (exfalso; omega)
        have he : (0xF0 + c.toNat / 262144 - 0xF0) * 262144
            + (0x80 + (c.toNat / 4096) % 64 - 0x80) * 4096
            + (0x80 + (c.toNat / 64) % 64 - 0x80) * 64
            + (0x80 + c.toNat % 64 - 0x80) = c.toNat := by omega
        rw [he, hofn]

theorem utf8DecodeLoop_step (fuel : Nat) (l : List Nat) (h : l ≠ []) :
    utf8DecodeLoop (fuel + 1) l
      = match utf8DecodeChar l with
        | some (c, rest) => (utf8DecodeLoop fuel rest).map (c :: ·)
        | none => none := by
  cases l with
  | nil => exact absurd rfl h
  | cons b t => rfl

theorem utf8DecodeLoop_encode (cs : List Char) (fuel : Nat)
    (hf : cs.length ≤ fuel) : utf8DecodeLoop fuel (utf8Encode cs) = some cs := by
  induction cs generalizing fuel with
  | nil => cases fuel <;> rfl
  | cons c cs ih =>
    cases fuel with
    | zero => simp at hf
    | succ fuel =>
      have hne : utf8EncodeChar c ++ utf8Encode cs ≠ [] := by
        intro hcon
        exact utf8EncodeChar_ne_nil c (List.append_eq_nil.mp hcon).1
      have henc : utf8Encode (c :: cs) = utf8EncodeChar c ++ utf8Encode cs := rfl
      rw [henc, utf8DecodeLoop_step fuel _ hne, utf8DecodeChar_encode]
      show Option.map (fun x => c :: x) (utf8DecodeLoop fuel (utf8Encode cs)) = some (c :: cs)
      rw [ih fuel (by simpa using hf)]
      rfl

theorem utf8Encode_length_ge (cs : List Char) : cs.length ≤ (utf8Encode cs).length := by
  induction cs with
  | nil => simp [utf8Encode]
  | cons c cs ih =>
    have henc : utf8Encode (c :: cs) = utf8EncodeChar c ++ utf8Encode cs := rfl
    rw [henc, List.length_append, List.length_cons]
    have hpos : 1 ≤ (utf8EncodeChar c).length := by
      cases h : utf8EncodeChar c with
      | nil => exact absurd h (utf8EncodeChar_ne_nil c)
      | cons _ _ => simp
    omega

theorem utf8Decode_encode (cs : List Char) : utf8Decode (utf8Encode cs) = some cs :=
  utf8DecodeLoop_encode cs _ (utf8Encode_length_ge cs)

/-! ## JSON values and reader (model of `json.loads` as used by `json_loads_safe`) -/

/-- JSON values as produced by `json.loads`: objects keep their members in
textual order (Python dicts preserve insertion order). -/
inductive JValue where
  | null
  | bool (b : Bool)
  | num (n : Int)
  | str (s : List Char)
  | arr (elems : List JValue)
  | obj (fields : List (List Char × JValue))

/-- JSON whitespace (space, tab, linefeed, carriage return). -/
def jsonWs (c : Char) : Bool := c = ' ' || c = '\t' || c = '\n' || c = '\x0d'

def skipWs : List Char → List Char
  | [] => []
  | c :: rest => if jsonWs c then skipWs rest else c :: rest

def hexDigit (c : Char) : Option Nat :=
  if '0' ≤ c ∧ c ≤ '9' then some (c.toNat - 48)
  else if 'a' ≤ c ∧ c ≤ 'f' then some (c.toNat - 87)
  else if 'A' ≤ c ∧ c ≤ 'F' then some (c.toNat - 55)
  else none

/-- Single-character string escapes of JSON. -/
def escSimple (c : Char) : Option Char :=
  if c = '"' then some '"'
  else if c = '\\' then some '\\'
  else if c = '/' then some '/'
  else if c = 'b' then some '\x08'
  else if c = 'f' then some '\x0c'
  else if c = 'n' then some '\n'
  else if c = 'r' then some '\x0d'
  else if c = 't' then some '\t'
  else none

/-- Read the remainder of a JSON string after its opening quote; strict as
`json.loads`: unescaped control characters are rejected. -/
def parseStringRest : Nat → List Char → Option (List Char × List Char)
  | 0, _ => none
  | _ + 1, [] => none
  | fuel + 1, c :: rest =>
    if c = '"' then some ([], rest)
    else if c = '\\' then
      match rest with
      | [] => none
      | e :: rest2 =>
        match escSimple e with
        | some d => (parseStringRest fuel rest2).map (fun sr => (d :: sr.1, sr.2))
        | none =>
          if e = 'u' then
            match rest2 with
            | h1 :: h2 :: h3 :: h4 :: rest3 =>
              match hexDigit h1, hexDigit h2, hexDigit h3, hexDigit h4 with
              | some a, some b, some x, some d =>
                (parseStringRest fuel rest3).map
                  (fun sr => (Char.ofNat (a * 4096 + b * 256 + x * 16 + d) :: sr.1, sr.2))
              | _, _, _, _ => none
            | _ => none
          else none
    else if c.toNat < 32 then none
    else (parseStringRest fuel rest).map (fun sr => (c :: sr.1, sr.2))

def isDigitC (c : Char) : Bool := '0' ≤ c && c ≤ '9'

def takeDigits : List Char → List Char × List Char
  | [] => ([], [])
  | c :: rest =>
    if isDigitC c then
      let dr := takeDigits rest
      (c :: dr.1, dr.2)
    else ([], c :: rest)

def digitsVal (ds : List Char) : Nat := ds.foldl (fun acc c => acc * 10 + (c.toNat - 48)) 0

/-- Read a JSON number. Leading zeros are rejected as in the JSON grammar;
fractional and exponent parts are outside this model (see file header). -/
def parseNumber (cs : List Char) : Option (Int × List Char) :=
  let sgn := match cs with
    | c :: rest => if c = '-' then (true, rest) else (false, cs)
    | [] => (false, cs)
  match takeDigits sgn.2 with
  | ([], _) => none
  | (ds, r) =>
    if 1 < ds.length ∧ ds.head? = some '0' then none
    else
      match r with
      | c :: _ =>
        if c = '.' ∨ c = 'e' ∨ c = 'E' then none
        else some (if sgn.1 then -(digitsVal ds : Int) else (digitsVal ds : Int), r)
      | [] => some (if sgn.1 then -(digitsVal ds : Int) else (digitsVal ds : Int), [])

mutual

/-- Read one JSON value (leading whitespace allowed). -/
def parseValue : Nat → List Char → Option (JValue × List Char)
  | 0, _ => none
  | fuel + 1, cs =>
    match skipWs cs with
    | [] => none
    | c :: rest =>
      if c = 't' then
        match rest with
        | 'r' :: 'u' :: 'e' :: r => some (.bool true, r)
        | _ => none
      else if c = 'f' then
        match rest with
        | 'a' :: 'l' :: 's' :: 'e' :: r => some (.bool false, r)
        | _ => none
      else if c = 'n' then
        match rest with
        | 'u' :: 'l' :: 'l' :: r => some (.null, r)
        | _ => none
      else if c = '"' then
        (parseStringRest (fuel + 1) rest).map (fun sr => (.str sr.1, sr.2))
      else if c = '\x7b' then
        match skipWs rest with
        | [] => none
        | d :: r2 =>
          if d = '\x7d' then some (.obj [], r2)
          else parseMembers fuel (d :: r2)
      else if c = '[' then
        match skipWs rest with
        | [] => none
        | d :: r2 =>
          if d = ']' then some (.arr [], r2)
          else parseElements fuel (d :: r2)
      else (parseNumber (c :: rest)).map (fun nr => (.num nr.1, nr.2))

/-- Read the members of an object, positioned at a key (whitespace already
skipped); consumes the closing brace. -/
def parseMembers : Nat → List Char → Option (JValue × List Char)
  | 0, _ => none
  | fuel + 1, cs =>
    match cs with
    | [] => none
    | c :: rest =>
      if c = '"' then
        match parseStringRest (fuel + 1) rest with
        | none => none
        | some (key, r1) =>
          match skipWs r1 with
          | [] => none
          | colon :: r2 =>
            if colon = ':' then
              match parseValue fuel r2 with
              | none => none
              | some (v, r3) =>
                match skipWs r3 with
                | [] => none
                | sep :: r4 =>
                  if sep = ',' then
                    match parseMembers fuel (skipWs r4) with
                    | some (.obj kvs, r5) => some (.obj ((key, v) :: kvs), r5)
                    | _ => none
                  else if sep = '\x7d' then some (.obj [(key, v)], r4)
                  else none
            else none
      else none

/-- Read the elements of an array, positioned at the first element; consumes
the closing bracket. -/
def parseElements : Nat → List Char → Option (JValue × List Char)
  | 0, _ => none
  | fuel + 1, cs =>
    match parseValue fuel cs with
    | none => none
    | some (v, r1) =>
      match skipWs r1 with
      | [] => none
      | sep :: r2 =>
        if sep = ',' then
          match parseElements fuel r2 with
          | some (.arr vs, r3) => some (.arr (v :: vs), r3)
          | _ => none
        else if sep = ']' then some (.arr [v], r2)
        else none

end

/-- Model of `json.loads` on a character string: one value, possibly
surrounded by whitespace, nothing else. -/
def jsonLoads (cs : List Char) : Option JValue :=
  match parseValue (cs.length + 1) cs with
  | some (v, rest) => if (skipWs rest).isEmpty then some v else none
  | none => none

/-- The sentinel `{"ok": False, "error": "bad_json"}` (app.py line 187). -/
def badJsonSentinel : JValue :=
  .obj [("ok".data, .bool false), ("error".data, .str "bad_json".data)]

/-- Model of `json_loads_safe` (app.py lines 182-187): decode the bytes as
UTF-8 and parse them as JSON; any failure yields the sentinel instead of an
exception. -/
def json_loads_safe (b : List Nat) : JValue :=
  match utf8Decode b with
  | none => badJsonSentinel
  | some cs =>
    match jsonLoads cs with
    | none => badJsonSentinel
    | some v => v

/-- Python `dict.get` on the dict built by `json.loads` from an object
member list: the last binding of a duplicated key wins. -/
def dictGet (kvs : List (List Char × JValue)) (k : List Char) : Option JValue :=
  kvs.foldl (fun acc p => if p.1 = k then some p.2 else acc) none

/-- Python truthiness of a JSON value (`None`, `False`, `0`, `""`, `[]` and
an empty dict are falsy). -/
def jtruthy : JValue → Bool
  | .null => false
  | .bool b => b
  | .num n => n != 0
  | .str s => !s.isEmpty
  | .arr xs => !xs.isEmpty
  | .obj kvs => !kvs.isEmpty

def jtruthyOpt : Option JValue → Bool
  | none => false
  | some v => jtruthy v

/-! ## Response envelope split (app.py lines 156-158) -/

/-- Model of `resp.partition(b"\n\n")` restricted to what `download_file`
uses: `some (before, after)` around the first occurrence of the two-newline
separator, `none` when there is no separator. -/
def partitionNN : List Nat → Option (List Nat × List Nat)
  | [] => none
  | b :: rest =>
    if b = 10 ∧ rest.head? = some 10 then some ([], rest.tail)
    else (partitionNN rest).map (fun pq => (b :: pq.1, pq.2))

/-- Model of app.py lines 157-158: split the agent's GET response at the
first `b"\n\n"` and parse the part before it with `json_loads_safe`; with no
separator the whole input is the header and the body is empty (Python's
`partition` places everything in the first component then). -/
def splitEnvelope (resp : List Nat) : JValue × List Nat :=
  match partitionNN resp with
  | some pq => (json_loads_safe pq.1, pq.2)
  | none => (json_loads_safe resp, [])

theorem partitionNN_sound (b : List Nat) (pre post : List Nat)
    (h : partitionNN b = some (pre, post)) :
    b = pre ++ 10 :: 10 :: post ∧ partitionNN (pre ++ [10]) = none := by
  induction b generalizing pre post with
  | nil => simp [partitionNN] at h
  | cons b0 rest ih =>
    by_cases hsep : b0 = 10 ∧ rest.head? = some 10
    · rw [partitionNN, if_pos hsep] at h
      obtain ⟨hpre, hpost⟩ := Prod.mk.injEq .. ▸ Option.some.inj h
      subst hpre
      cases rest with
      | nil => simp at hsep
      | cons r1 rs =>
        obtain ⟨h10, hh⟩ := hsep
        simp only [List.head?] at hh
        constructor
        · simp only [List.nil_append]
          rw [h10, Option.some.inj hh]
          simp only [List.tail_cons] at hpost
          rw [hpost]
        · rfl
    · rw [partitionNN, if_neg hsep] at h
      cases hr : partitionNN rest with
      | none => rw [hr] at h; simp at h
      | some pq =>
        rw [hr] at h
        obtain ⟨pre', post'⟩ := pq
        simp only [Option.map_some', Option.some.injEq] at h
        obtain ⟨hpre, hpost⟩ := Prod.mk.injEq .. ▸ h
        obtain ⟨ihb, ihn⟩ := ih pre' post' hr
        subst hpost
        constructor
        · rw [← hpre, ihb]; rfl
        · rw [← hpre]
          have hcons : (b0 :: pre') ++ [10] = b0 :: (pre' ++ [10]) := rfl
          rw [hcons, partitionNN, if_neg, ihn]
          · rfl
          · intro hcon
            obtain ⟨hb0, hhd⟩ := hcon
            apply hsep
            refine ⟨hb0, ?_⟩
            rw [ihb]
            cases pre' with
            | nil => rfl
            | cons p ps =>
              simp only [List.cons_append, List.head?] at hhd ⊢
              exact hhd

theorem partitionNN_none_split (b : List Nat) (h : partitionNN b = none) :
    splitEnvelope b = (json_loads_safe b, []) := by
  unfold splitEnvelope
  rw [h]

theorem partitionNN_some_split (b : List Nat) (pre post : List Nat)
    (h : partitionNN b = some (pre, post)) :
    splitEnvelope b = (json_loads_safe pre, post) := by
  unfold splitEnvelope
  rw [h]

/-! ## Bridge state (the module-level dicts of app.py) and `agent_call` -/

/-- State of an `asyncio.Future` held in `response_futures`. -/
inductive FutState where
  | pending
  | resolvedF (data : List Nat)
  | cancelledF
deriving DecidableEq

/-- One future object: a distinguishing identity (Python compares futures
by object identity in the `finally` of `agent_call`) and its state. -/
structure FutCell where
  id : Nat
  st : FutState
deriving DecidableEq

/-- The module-level mutable state of app.py: `agents` (token to websocket,
connections named by identity), `response_futures` (token to future), and
the held/free state of each token's `asyncio.Lock` in `locks`.  A lock
object exists for every token that was ever registered (line 57) and is
never removed; absence and a free lock are indistinguishable here. -/
structure BridgeState where
  agents : String → Option Nat
  futures : String → Option FutCell
  locked : String → Bool

/-- Pointwise update of a functional map (a dict assignment or `pop`). -/
def mapSet {α : Type} (m : String → Option α) (k : String) (v : Option α) :
    String → Option α :=
  fun t => if t = k then v else m t

/-- Registration step of `ws_endpoint` (lines 55-57): `agents[token] = ws`
replaces any previous connection (last writer wins);
`locks.setdefault(token, Lock())` creates the lock object but changes no
held/free state. -/
def register (st : BridgeState) (token : String) (ws : Nat) : BridgeState :=
  { st with agents := mapSet st.agents token (some ws) }

/-- The `/status` check `x_auth_token in agents` (line 35). -/
def isConnected (st : BridgeState) (token : String) : Bool :=
  (st.agents token).isSome

/-- The `finally` block of `ws_endpoint` (lines 89-97): only when the
connection registered for the token is this very connection, pop the
registry entry, cancel a still-pending future, and pop the future
registration.  The Boolean reports whether a pending future was cancelled
(`fut.cancel()` makes the `await` in `agent_call` observe cancellation). -/
def wsCleanup (st : BridgeState) (token : String) (ws : Nat) : BridgeState × Bool :=
  if st.agents token = some ws then
    ({ st with
        agents := mapSet st.agents token none,
        futures := mapSet st.futures token none },
      match st.futures token with
      | some cell => match cell.st with
        | .pending => true
        | _ => false
      | none => false)
  else (st, false)

/-- Errors surfaced by `agent_call`, named as in the spec's taxonomy; the
comments give the concrete surface in app.py. -/
inductive CallError where
  | sessionMissing     -- HTTPException 400 "missing_session_token" (line 101)
  | agentUnavailable   -- HTTPException 503 "agent_not_connected" (line 103)
  | agentTimeout       -- HTTPException 504 "agent_timeout" (line 123)
  | agentDisconnected  -- the CancelledError raised out of the await when the
                       -- read loop's cleanup cancels the future (lines 94-95);
                       -- CancelledError is a BaseException, so the
                       -- `except Exception` arm does not swallow it
  | agentError (msg : String)  -- HTTPException 504 "agent_error:..." (line 125)
deriving DecidableEq

/-- A frame sent to the agent (`ws.send_text` / `ws.send_bytes`). -/
inductive SendEvent where
  | text (s : String)
  | binary (b : List Nat)
deriving DecidableEq

/-- What the `await asyncio.wait_for(fut, timeout=120)` at line 120
observes: the future resolved with bytes, the 120-unit timeout fired, the
future was cancelled by the connection handler, or some other exception was
raised in the body. -/
inductive AwaitOutcome where
  | resolved (data : List Nat)
  | timedOut
  | cancelled
  | raised (msg : String)
deriving DecidableEq

/-- Result of one completed run of `agent_call`. -/
structure CallResult where
  result : Except CallError (List Nat)
  final : BridgeState
  sends : List SendEvent

/-- Model of `agent_call` (app.py lines 99-129) run to completion.

Steps, in source order: fail with `sessionMissing` on an empty token
(line 100); fail with `agentUnavailable` when the token has no registered
connection (line 102) — both before the lock is touched and before any
frame is sent.  Otherwise, under `async with lock`: register a fresh future
for the token (line 112), send the command text frame and, if present, the
payload bytes frame (lines 115-117), then await the future; `outcome` is
what that await observes.  The `finally` (lines 127-129) pops the future
registration only when it still holds this very future — when the outcome
is `cancelled` the connection handler's cleanup has already popped it
(line 96).  Leaving `async with` releases the lock on every path. -/
def agent_call (st : BridgeState) (command : String) (payload : Option (List Nat))
    (token : String) (futId : Nat) (outcome : AwaitOutcome) : CallResult :=
  if token = "" then ⟨.error .sessionMissing, st, []⟩
  else
    match st.agents token with
    | none => ⟨.error .agentUnavailable, st, []⟩
    | some _ =>
      let sends := SendEvent.text command ::
        (match payload with
         | some p => [SendEvent.binary p]
         | none => [])
      let futAtResume : String → Option FutCell :=
        match outcome with
        | .cancelled => mapSet st.futures token none
        | .resolved d => mapSet st.futures token (some ⟨futId, .resolvedF d⟩)
        | _ => mapSet st.futures token (some ⟨futId, .pending⟩)
      let res : Except CallError (List Nat) :=
        match outcome with
        | .resolved d => .ok d
        | .timedOut => .error .agentTimeout
        | .cancelled => .error .agentDisconnected
        | .raised m => .error (.agentError ("agent_error:" ++ m))
      let futFinal : String → Option FutCell :=
        match futAtResume token with
        | some cell => if cell.id = futId then mapSet futAtResume token none else futAtResume
        | none => futAtResume
      ⟨res,
        { st with
            futures := futFinal,
            locked := fun t => if t = token then false else st.locked t },
        sends⟩

/-! ## The read loop of `ws_endpoint` (app.py lines 61-83) -/

/-- One inbound websocket message as seen by the read loop. -/
inductive WsMsg where
  | disconnect
  | text (s : String)
  | binary (b : List Nat)
deriving DecidableEq

/-- The externally visible effect of one read-loop iteration. -/
inductive LoopEffect where
  | exitLoop                      -- `websocket.disconnect`: break
  | pong                          -- answered `ping` with `pong`, nothing else
  | delivered (data : List Nat)   -- `fut.set_result(data)` on the pending future
  | dropped (data : List Nat)     -- data with no live pending future: discarded
deriving DecidableEq

/-- Delivery step (app.py lines 80-83): look up the session's future and
resolve it only when present and not done. -/
def deliverData (futures : String → Option FutCell) (token : String)
    (data : List Nat) : LoopEffect × (String → Option FutCell) :=
  match futures token with
  | some cell =>
    match cell.st with
    | .pending => (.delivered data, mapSet futures token (some ⟨cell.id, .resolvedF data⟩))
    | _ => (.dropped data, futures)
  | none => (.dropped data, futures)

/-- One iteration of the read loop (app.py lines 64-83): a disconnect
message breaks the loop; a text frame equal to `"ping"` is answered with
`pong` and nothing else; any other text frame is UTF-8 encoded and treated
as data; a binary frame is data as-is. -/
def readLoopBody (futures : String → Option FutCell) (token : String) (msg : WsMsg) :
    LoopEffect × (String → Option FutCell) :=
  match msg with
  | .disconnect => (.exitLoop, futures)
  | .text s =>
    if s = "ping" then (.pong, futures)
    else deliverData futures token (utf8Encode s.data)
  | .binary b => deliverData futures token b

/-! ## HTTP endpoint models: `/download/{filename}` and `/upload` -/

/-- What `download_file` (app.py lines 150-155) decides before any
interaction with the agent: its outcome is either one of the two early
client errors, or the `agent_call` invocation it proceeds to — acquiring
the session lock and sending frames happen only inside `agent_call`, so an
early error performs neither. -/
inductive DlEntry where
  | errMissingToken                                        -- 401 "missing_token" (line 152)
  | errBadFilename                                         -- 400 "bad_filename" (line 154)
  | callAgent (cmd : String) (payload : List Nat) (token : String)  -- line 155
deriving DecidableEq

/-- Entry checks of `download_file` in source order: a missing or empty
`X-Auth-Token` header is rejected first (`if not x_auth_token`), then a
filename of more than 255 characters, and only then is
`agent_call("GET", filename.encode("utf-8"), token)` reached. -/
def download_entry (filename : String) (xAuthToken : Option String) : DlEntry :=
  match xAuthToken with
  | none => .errMissingToken
  | some t =>
    if t = "" then .errMissingToken
    else if 255 < filename.length then .errBadFilename
    else .callAgent "GET" (utf8Encode filename.data) t

/-- Outcome of the response-processing half of `download_file`
(app.py lines 156-167). -/
inductive DlResult where
  | crash                                  -- `meta.get` on a non-dict: AttributeError
  | notFound (detail : JValue)             -- HTTPException 404 (line 160)
  | file (outName : JValue) (body : List Nat)  -- StreamingResponse (lines 163-167)

/-- Model of app.py lines 156-167: split the envelope, then
`meta.get("ok")` gates between the 404 branch (detail
`meta.get("error", "not_found")`) and the streaming branch (outbound name
`meta.get("name", filename)`).  When the parsed header is not a JSON
object, `meta.get` does not exist and the handler raises. -/
def download_finish (resp : List Nat) (filename : String) : DlResult :=
  match splitEnvelope resp with
  | (meta, body) =>
    match meta with
    | .obj kvs =>
      if jtruthyOpt (dictGet kvs "ok".data) then
        .file
          (match dictGet kvs "name".data with
           | some v => v
           | none => .str filename.data)
          body
      else
        .notFound
          (match dictGet kvs "error".data with
           | some v => v
           | none => .str "not_found".data)
    | _ => .crash

/-- The PUT payload built by `upload_file` (app.py line 146):
`(file.filename + "\n").encode("utf-8") + content`. -/
def putPayload (filename : String) (content : List Nat) : List Nat :=
  utf8Encode (filename ++ "\n").data ++ content

/-- Split a byte string at the first occurrence of a byte. -/
def splitAtFirstByte (sep : Nat) : List Nat → Option (List Nat × List Nat)
  | [] => none
  | b :: rest =>
    if b = sep then some ([], rest)
    else (splitAtFirstByte sep rest).map (fun pq => (b :: pq.1, pq.2))

/-- Modelled from the spec: the agent's own PUT decoder is not part of this
repository (only the relay is under src/); per the spec's interface section
the payload shape is `filename + "\n" + file bytes`, so the agent-side
decoder splits at the first newline byte and reads the part before it as
the UTF-8 filename, the part after it verbatim as the file body. -/
def decodePutPayload (payload : List Nat) : Option (String × List Nat) :=
  match splitAtFirstByte 10 payload with
  | some pq => (utf8Decode pq.1).map (fun cs => (String.mk cs, pq.2))
  | none => none

/-! ## Interleaving of two `agent_call`s on one token (for the
serialization claim) -/

/-- Control location of one `agent_call` coroutine that has already passed
the two entry checks, relative to the session lock:
`beforeLock` is just before `async with lock` (line 108); `sending` covers
future registration and the sends (lines 109-117); `awaiting` is the
suspension at `asyncio.wait_for` (line 120); `cleanup` is the `finally`
(lines 126-129); `finished` is after the lock is released. -/
inductive CallPhase where
  | beforeLock
  | sending
  | awaiting
  | cleanup
  | finished
deriving DecidableEq

/-- A phase that can only be occupied while holding the session lock. -/
def holdsLock : CallPhase → Bool
  | .sending => true
  | .awaiting => true
  | .cleanup => true
  | _ => false

/-- The send/await phases named by the serialization claim. -/
def inSendAwait : CallPhase → Bool
  | .sending => true
  | .awaiting => true
  | _ => false

/-- Joint state of the session lock and two concurrent `agent_call`
coroutines on the same token. -/
structure PairState where
  lockHeld : Bool
  c1 : CallPhase
  c2 : CallPhase
deriving DecidableEq

/-- Interleaved small steps of the two coroutines.  The only step that is
guarded is lock acquisition: `async with lock` proceeds only when the lock
is free, and then atomically (no await point between the guard and taking
the lock in `asyncio.Lock.acquire` once it is free).  Completing the
`finally` releases the lock. -/
inductive PStep : PairState → PairState → Prop
  | acquire1 (c2 : CallPhase) : PStep ⟨false, .beforeLock, c2⟩ ⟨true, .sending, c2⟩
  | send1 (l : Bool) (c2 : CallPhase) : PStep ⟨l, .sending, c2⟩ ⟨l, .awaiting, c2⟩
  | resume1 (l : Bool) (c2 : CallPhase) : PStep ⟨l, .awaiting, c2⟩ ⟨l, .cleanup, c2⟩
  | release1 (l : Bool) (c2 : CallPhase) : PStep ⟨l, .cleanup, c2⟩ ⟨false, .finished, c2⟩
  | acquire2 (c1 : CallPhase) : PStep ⟨false, c1, .beforeLock⟩ ⟨true, c1, .sending⟩
  | send2 (l : Bool) (c1 : CallPhase) : PStep ⟨l, c1, .sending⟩ ⟨l, c1, .awaiting⟩
  | resume2 (l : Bool) (c1 : CallPhase) : PStep ⟨l, c1, .awaiting⟩ ⟨l, c1, .cleanup⟩
  | release2 (l : Bool) (c1 : CallPhase) : PStep ⟨l, c1, .cleanup⟩ ⟨false, c1, .finished⟩

/-- Both coroutines start before the lock, which is free. -/
def pairInit : PairState := ⟨false, .beforeLock, .beforeLock⟩

/-- States the interleaved pair can actually be in. -/
def PairReachable (s : PairState) : Prop := Relation.ReflTransGen PStep pairInit s

/-- Mutual-exclusion invariant: the lock is held exactly when one of the
two coroutines is inside the `async with`, and never both at once. -/
def pairInv (s : PairState) : Bool :=
  (s.lockHeld == (holdsLock s.c1 || holdsLock s.c2))
    && !(holdsLock s.c1 && holdsLock s.c2)

theorem pairInv_step {s s' : PairState} (hinv : pairInv s = true) (hs : PStep s s') :
    pairInv s' = true := by
  cases hs with
  | acquire1 c2 => revert hinv; cases c2 <;> decide
  | send1 l c2 => revert hinv; cases l <;> cases c2 <;> decide
  | resume1 l c2 => revert hinv; cases l <;> cases c2 <;> decide
  | release1 l c2 => revert hinv; cases l <;> cases c2 <;> decide
  | acquire2 c1 => revert hinv; cases c1 <;> decide
  | send2 l c1 => revert hinv; cases l <;> cases c1 <;> decide
  | resume2 l c1 => revert hinv; cases l <;> cases c1 <;> decide
  | release2 l c1 => revert hinv; cases l <;> cases c1 <;> decide

theorem pairInv_reachable {s : PairState} (h : PairReachable s) : pairInv s = true := by
  induction h with
  | refl => decide
  | tail _ hstep ih => exact pairInv_step ih hstep

/-! ## Helper lemmas for the PUT payload round trip -/

theorem utf8Encode_append (a b : List Char) :
    utf8Encode (a ++ b) = utf8Encode a ++ utf8Encode b := by
  induction a with
  | nil => rfl
  | cons c cs ih => simp [utf8Encode, ih]

theorem newline_byte_mem (c : Char) (h : 10 ∈ utf8EncodeChar c) : c = '\n' := by
  rcases Nat.lt_or_ge c.toNat 0x80 with h1 | h1
  · rw [utf8EncodeChar_one c h1] at h
    simp only [List.mem_singleton] at h
    have hofn := Char.ofNat_toNat c
    rw [← h] at hofn
    rw [← hofn]
  · rcases Nat.lt_or_ge c.toNat 0x800 with h2 | h2
    · rw [utf8EncodeChar_two c h1 h2] at h
      simp at h
      exfalso
      omega
    · rcases Nat.lt_or_ge c.toNat 0x10000 with h3 | h3
      · rw [utf8EncodeChar_three c h2 h3] at h
        simp at h
        exfalso
        omega
      · rw [utf8EncodeChar_four c h3] at h
        simp at h
        exfalso
        omega

theorem ten_not_mem_utf8Encode (cs : List Char) (h : '\n' ∉ cs) :
    10 ∉ utf8Encode cs := by
  induction cs with
  | nil => simp [utf8Encode]
  | cons c rest ih =>
    have henc : utf8Encode (c :: rest) = utf8EncodeChar c ++ utf8Encode rest := rfl
    rw [henc]
    intro hmem
    rcases List.mem_append.mp hmem with hl | hr
    · exact h (newline_byte_mem c hl ▸ List.mem_cons_self c rest)
    · exact ih (fun hm => h (List.mem_cons_of_mem c hm)) hr

theorem splitAtFirstByte_concat (l r : List Nat) (h : 10 ∉ l) :
    splitAtFirstByte 10 (l ++ 10 :: r) = some (l, r) := by
  induction l with
  | nil => simp [splitAtFirstByte]
  | cons b bs ih =>
    have hb : ¬(b = 10) := fun hcon => h (hcon ▸ List.mem_cons_self b bs)
    have hbs : 10 ∉ bs := fun hm => h (List.mem_cons_of_mem b hm)
    simp [splitAtFirstByte, hb, ih hbs]

/-! ## Concrete fixtures used by witnesses and the counterexample -/

/-- A bridge state with no agent, no future, no lock held. -/
def emptyBridge : BridgeState :=
  ⟨fun _ => none, fun _ => none, fun _ => false⟩

/-- A bridge state with one agent (connection 7) registered under token
`"t"` and no pending future. -/
def oneAgentBridge : BridgeState :=
  ⟨fun t => if t = "t" then some 7 else none, fun _ => none, fun _ => false⟩

/-- A bridge state in the middle of a call on token `"t"`: agent
connection 7 registered, future 0 pending, the session lock held. -/
def busyBridge : BridgeState :=
  ⟨fun t => if t = "t" then some 7 else none,
    fun t => if t = "t" then some ⟨0, .pending⟩ else none,
    fun t => t = "t"⟩

/-- A future map with a single pending future for token `"t"`. -/
def pendingFuts : String → Option FutCell :=
  fun t => if t = "t" then some ⟨0, .pending⟩ else none

/-- The bytes of the literal `"ping"`. -/
def pingBytes : List Nat := strBytes "ping"

/-! ## The claims -/

/-- C1: for every session token, at most one request is outstanding at a
time — in every reachable interleaving of two concurrent `agent_call`s on
the same token, the two coroutines are never simultaneously in their
send/await phases: they serialize on the session's lock. -/
theorem frb_c1 (s : PairState) (h : PairReachable s) :
    ¬(inSendAwait s.c1 = true ∧ inSendAwait s.c2 = true) := by
  have hinv := pairInv_reachable h
  rintro ⟨h1, h2⟩
  have hl1 : holdsLock s.c1 = true := by
    revert h1; cases s.c1 <;> decide
  have hl2 : holdsLock s.c2 = true := by
    revert h2; cases s.c2 <;> decide
  rw [pairInv, hl1, hl2] at hinv
  simp at hinv

theorem frb_c1_witness :
    ¬(inSendAwait (PairState.mk true CallPhase.sending CallPhase.beforeLock).c1 = true
      ∧ inSendAwait (PairState.mk true CallPhase.sending CallPhase.beforeLock).c2 = true) :=
  frb_c1 ⟨true, .sending, .beforeLock⟩
    (Relation.ReflTransGen.single (PStep.acquire1 CallPhase.beforeLock))

/-- C2: splitting the response envelope at the first two-newline separator
yields the bytes before it parsed by `json_loads_safe` as the header and
the bytes after it verbatim as the body (with no separator the whole input
is the header and the body is empty); on the concrete inputs of the claim,
a well-formed header parses to its JSON object and a malformed header
yields the `bad_json` sentinel with the trailing bytes unchanged — and
`splitEnvelope` is a total function, so no input raises. -/
theorem frb_c2 :
    (∀ b pre post, partitionNN b = some (pre, post) →
      b = pre ++ 10 :: 10 :: post ∧ partitionNN (pre ++ [10]) = none
        ∧ splitEnvelope b = (json_loads_safe pre, post))
    ∧ (∀ b, partitionNN b = none → splitEnvelope b = (json_loads_safe b, []))
    ∧ splitEnvelope (strBytes "\x7b\"ok\":true,\"name\":\"x\"\x7d\n\nPAYLOAD")
        = (.obj [("ok".data, .bool true), ("name".data, .str "x".data)], strBytes "PAYLOAD")
    ∧ splitEnvelope (strBytes "nope\n\nPAYLOAD") = (badJsonSentinel, strBytes "PAYLOAD") := by
  refine ⟨?_, ?_, ?_, ?_⟩
  · intro b pre post h
    obtain ⟨h1, h2⟩ := partitionNN_sound b pre post h
    exact ⟨h1, h2, partitionNN_some_split b pre post h⟩
  · exact partitionNN_none_split
  · rfl
  · rfl

theorem frb_c2_witness :
    strBytes "A\n\nB" = strBytes "A" ++ 10 :: 10 :: strBytes "B"
      ∧ partitionNN (strBytes "A" ++ [10]) = none
      ∧ splitEnvelope (strBytes "A\n\nB") = (json_loads_safe (strBytes "A"), strBytes "B") :=
  frb_c2.1 (strBytes "A\n\nB") (strBytes "A") (strBytes "B") rfl

/-- C3: `agent_call` on the empty token fails with `sessionMissing`
(HTTP 400 `missing_session_token`) before any lookup or send, and on a
nonempty token with no registered connection it fails with
`agentUnavailable` (HTTP 503 `agent_not_connected`); in both cases no frame
is sent and the state is untouched. -/
theorem frb_c3 :
    (∀ st cmd payload futId outcome,
      (agent_call st cmd payload "" futId outcome).result = .error .sessionMissing
        ∧ (agent_call st cmd payload "" futId outcome).sends = []
        ∧ (agent_call st cmd payload "" futId outcome).final = st)
    ∧ (∀ st cmd payload (token : String) futId outcome, token ≠ "" →
        st.agents token = none →
        (agent_call st cmd payload token futId outcome).result = .error .agentUnavailable
          ∧ (agent_call st cmd payload token futId outcome).sends = []
          ∧ (agent_call st cmd payload token futId outcome).final = st) := by
  constructor
  · intro st cmd payload futId outcome
    exact ⟨rfl, rfl, rfl⟩
  · intro st cmd payload token futId outcome htok hnone
    refine ⟨?_, ?_, ?_⟩ <;> (unfold agent_call; rw [if_neg htok, hnone])

theorem frb_c3_witness :
    (agent_call emptyBridge "LIST" none "t" 0 .timedOut).result = .error .agentUnavailable
      ∧ (agent_call emptyBridge "LIST" none "t" 0 .timedOut).sends = []
      ∧ (agent_call emptyBridge "LIST" none "t" 0 .timedOut).final = emptyBridge :=
  frb_c3.2 emptyBridge "LIST" none "t" 0 .timedOut (by decide) rfl

theorem agent_call_agents (st : BridgeState) (cmd : String) (payload : Option (List Nat))
    (token : String) (futId : Nat) (outcome : AwaitOutcome) :
    (agent_call st cmd payload token futId outcome).final.agents = st.agents := by
  unfold agent_call
  split
  · rfl
  · split <;> rfl

/-- C4: an `agent_call` whose 120-unit await times out fails with
`agentTimeout` (HTTP 504 `agent_timeout`); on every exit path — success,
timeout, cancellation or any other error — the pending-slot registration
for the token is cleared and the session lock is released, and a subsequent
call on the same token then succeeds normally. -/
theorem frb_c4 (st : BridgeState) (cmd : String) (payload : Option (List Nat))
    (token : String) (futId : Nat) (ws : Nat)
    (htok : token ≠ "") (hconn : st.agents token = some ws) :
    (agent_call st cmd payload token futId .timedOut).result = .error .agentTimeout
    ∧ (∀ outcome,
        (agent_call st cmd payload token futId outcome).final.futures token = none
        ∧ (agent_call st cmd payload token futId outcome).final.locked token = false)
    ∧ (∀ d cmd2 p2 futId2,
        (agent_call (agent_call st cmd payload token futId .timedOut).final
          cmd2 p2 token futId2 (.resolved d)).result = .ok d) := by
  refine ⟨?_, ?_, ?_⟩
  · unfold agent_call
    rw [if_neg htok, hconn]
  · intro outcome
    unfold agent_call
    rw [if_neg htok, hconn]
    cases outcome <;> exact ⟨by simp [mapSet], by simp⟩
  · intro d cmd2 p2 futId2
    have hag : (agent_call st cmd payload token futId .timedOut).final.agents token
        = some ws := by
      rw [agent_call_agents]
      exact hconn
    generalize (agent_call st cmd payload token futId AwaitOutcome.timedOut).final = st2 at hag
    unfold agent_call
    rw [if_neg htok, hag]

theorem frb_c4_witness :
    (agent_call oneAgentBridge "GET" none "t" 0 .timedOut).result = .error .agentTimeout
    ∧ (agent_call oneAgentBridge "GET" none "t" 0 .timedOut).final.futures "t" = none
    ∧ (agent_call oneAgentBridge "GET" none "t" 0 .timedOut).final.locked "t" = false
    ∧ (agent_call (agent_call oneAgentBridge "GET" none "t" 0 .timedOut).final
        "GET" none "t" 1 (.resolved (strBytes "hi"))).result = .ok (strBytes "hi") := by
  have h := frb_c4 oneAgentBridge "GET" none "t" 0 7 (by decide) rfl
  exact ⟨h.1, (h.2.1 .timedOut).1, (h.2.1 .timedOut).2, h.2.2 (strBytes "hi") "GET" none 1⟩

/-- C5: when the agent connection registered for a token is torn down while
a call is awaiting its pending slot, the `finally` of `ws_endpoint` cancels
the pending future (so the waiting `agent_call` fails with
`agentDisconnected`) and pops the registry entry, so the registry reports
the token as not connected immediately afterwards. -/
theorem frb_c5 (st : BridgeState) (token : String) (ws : Nat) (cell : FutCell)
    (htok : token ≠ "") (hconn : st.agents token = some ws)
    (hfut : st.futures token = some cell) (hpend : cell.st = .pending) :
    (wsCleanup st token ws).2 = true
    ∧ isConnected (wsCleanup st token ws).1 token = false
    ∧ (wsCleanup st token ws).1.agents token = none
    ∧ (∀ cmd payload futId,
        (agent_call st cmd payload token futId .cancelled).result
          = .error .agentDisconnected) := by
  refine ⟨?_, ?_, ?_, ?_⟩
  · unfold wsCleanup
    rw [if_pos hconn, hfut]
    show (match cell.st with | FutState.pending => true | _ => false) = true
    rw [hpend]
  · unfold isConnected wsCleanup
    rw [if_pos hconn]
    simp [mapSet]
  · unfold wsCleanup
    rw [if_pos hconn]
    simp [mapSet]
  · intro cmd payload futId
    unfold agent_call
    rw [if_neg htok, hconn]

theorem frb_c5_witness :
    (wsCleanup busyBridge "t" 7).2 = true
    ∧ isConnected (wsCleanup busyBridge "t" 7).1 "t" = false
    ∧ (wsCleanup busyBridge "t" 7).1.agents "t" = none
    ∧ (agent_call busyBridge "GET" none "t" 0 .cancelled).result
        = .error .agentDisconnected := by
  have h := frb_c5 busyBridge "t" 7 ⟨0, .pending⟩ (by decide) rfl rfl rfl
  exact ⟨h.1, h.2.1, h.2.2.1, h.2.2.2 "GET" none 0⟩

/-- C6 counterexample: the claim says a BINARY frame whose payload equals
the literal `ping` is answered with `pong` and never resolves a pending
slot; in the code only TEXT frames are checked against `"ping"`
(app.py line 72), while a binary frame goes down the data path
(line 76-77) — so with a pending slot for the token, the binary `ping`
frame is delivered as data and resolves the slot. -/
theorem frb_c6_counterexample :
    (readLoopBody pendingFuts "t" (.binary pingBytes)).1 = .delivered pingBytes
    ∧ (readLoopBody pendingFuts "t" (.binary pingBytes)).2 "t"
        = some ⟨0, .resolvedF pingBytes⟩
    ∧ (readLoopBody pendingFuts "t" (.binary pingBytes)).1 ≠ .pong := by
  refine ⟨rfl, rfl, ?_⟩
  intro h
  simp [readLoopBody, deliverData, pendingFuts] at h

/-- C6 (amended): for every inbound TEXT frame equal to the literal `ping`,
the read loop answers `pong`, leaves the futures untouched and never
resolves a pending slot; only a text frame different from `"ping"` (or a
binary frame) can resolve the session's pending slot — a binary frame is
always treated as data, even when its payload spells `ping`. -/
theorem frb_c6 :
    (∀ futures token, readLoopBody futures token (.text "ping") = (.pong, futures))
    ∧ (∀ futures token s d,
        (readLoopBody futures token (.text s)).1 = .delivered d → s ≠ "ping") := by
  constructor
  · intro futures token
    rfl
  · intro futures token s d h hs
    subst hs
    simp [readLoopBody] at h

theorem frb_c6_witness : ("data" : String) ≠ "ping" :=
  frb_c6.2 pendingFuts "t" "data" (strBytes "data") rfl

/-- C7: the PUT payload encoding of `upload_file` — filename, one newline,
then the file bytes — round-trips through the agent-side decoder (modelled
from the spec) for every filename free of newlines and every body. -/
theorem frb_c7 (filename : String) (body : List Nat) (hnl : '\n' ∉ filename.data) :
    decodePutPayload (putPayload filename body) = some (filename, body) := by
  unfold putPayload decodePutPayload
  have hdata : (filename ++ "\n").data = filename.data ++ ['\n'] := by
    rw [String.data_append]
  rw [hdata, utf8Encode_append]
  have henc : utf8Encode ['\n'] = [10] := rfl
  rw [henc, List.append_assoc]
  have hconcat : [10] ++ body = 10 :: body := rfl
  rw [hconcat, splitAtFirstByte_concat _ _ (ten_not_mem_utf8Encode _ hnl)]
  show (utf8Decode (utf8Encode filename.data)).map
    (fun cs => (String.mk cs, body)) = some (filename, body)
  rw [utf8Decode_encode]
  show some (String.mk filename.data, body) = some (filename, body)
  have hmk : String.mk filename.data = filename := by
    cases filename
    rfl
  rw [hmk]

theorem frb_c7_witness :
    decodePutPayload (putPayload "a.txt" (strBytes "hi")) = some ("a.txt", strBytes "hi") :=
  frb_c7 "a.txt" (strBytes "hi") (by decide)

/-- C8: after a reconnect registers a new connection under a token that
already has an active one (last writer wins), the old connection's
disconnect cleanup leaves the registry untouched — `ws_endpoint` pops the
entry only when the currently registered connection is the very connection
being torn down. -/
theorem frb_c8 (st : BridgeState) (token : String) (oldWs newWs : Nat)
    (hold : st.agents token = some oldWs) (hne : oldWs ≠ newWs) :
    (wsCleanup (register st token newWs) token oldWs).1 = register st token newWs
    ∧ (wsCleanup (register st token newWs) token oldWs).1.agents token = some newWs
    ∧ (∀ st' (t : String) (w : Nat), st'.agents t ≠ some w → (wsCleanup st' t w).1 = st') := by
  have hreg : (register st token newWs).agents token = some newWs := by
    simp [register, mapSet]
  have hguard : (register st token newWs).agents token ≠ some oldWs := by
    rw [hreg]
    intro hcon
    exact hne (Option.some.inj hcon).symm
  refine ⟨?_, ?_, ?_⟩
  · unfold wsCleanup
    rw [if_neg hguard]
  · unfold wsCleanup
    rw [if_neg hguard]
    exact hreg
  · intro st' t w hne'
    unfold wsCleanup
    rw [if_neg hne']

theorem frb_c8_witness :
    (wsCleanup (register oneAgentBridge "t" 8) "t" 7).1 = register oneAgentBridge "t" 8
    ∧ (wsCleanup (register oneAgentBridge "t" 8) "t" 7).1.agents "t" = some 8 := by
  have h := frb_c8 oneAgentBridge "t" 7 8 rfl (by decide)
  exact ⟨h.1, h.2.1⟩

/-- C9: `download_file` rejects a requested filename longer than 255
characters with the 400 `bad_filename` error before `agent_call` is ever
reached — so before the session lock is acquired and before anything is
sent; for every filename of at most 255 characters the check passes and
the handler proceeds to `agent_call("GET", filename.encode("utf-8"))`. -/
theorem frb_c9 (filename : String) (t : String) (ht : t ≠ "") :
    (255 < filename.length → download_entry filename (some t) = .errBadFilename)
    ∧ (filename.length ≤ 255 →
        download_entry filename (some t) = .callAgent "GET" (utf8Encode filename.data) t) := by
  constructor
  · intro hlen
    show (if t = "" then DlEntry.errMissingToken
      else if 255 < filename.length then DlEntry.errBadFilename
      else DlEntry.callAgent "GET" (utf8Encode filename.data) t) = DlEntry.errBadFilename
    rw [if_neg ht, if_pos hlen]
  · intro hlen
    show (if t = "" then DlEntry.errMissingToken
      else if 255 < filename.length then DlEntry.errBadFilename
      else DlEntry.callAgent "GET" (utf8Encode filename.data) t)
        = DlEntry.callAgent "GET" (utf8Encode filename.data) t
    rw [if_neg ht, if_neg (by omega)]

theorem frb_c9_witness :
    download_entry (String.mk (List.replicate 256 'a')) (some "t") = .errBadFilename
    ∧ download_entry "a.txt" (some "t")
        = .callAgent "GET" (utf8Encode "a.txt".data) "t" :=
  ⟨(frb_c9 (String.mk (List.replicate 256 'a')) "t" (by decide)).1
      (by show (255 : Nat) < (List.replicate 256 'a').length
          rw [List.length_replicate]
          omega),
    (frb_c9 "a.txt" "t" (by decide)).2 (by decide)⟩

/-- C10: when the download envelope's header parses to a JSON object whose
`ok` member is truthy and which has no `name` member, the outbound filename
returned to the client is exactly the originally requested filename (the
`name` member, when present, would override it via
`meta.get("name", filename)`). -/
theorem frb_c10 (resp : List Nat) (filename : String) (kvs : List (List Char × JValue))
    (hmeta : (splitEnvelope resp).1 = .obj kvs)
    (hok : jtruthyOpt (dictGet kvs "ok".data) = true)
    (hname : dictGet kvs "name".data = none) :
    download_finish resp filename = .file (.str filename.data) (splitEnvelope resp).2 := by
  rcases hsp : splitEnvelope resp with ⟨meta, body⟩
  rw [hsp] at hmeta
  simp only [] at hmeta
  subst hmeta
  unfold download_finish
  rw [hsp]
  simp [hok, hname]

theorem frb_c10_witness :
    download_finish (strBytes "\x7b\"ok\":true\x7d\n\nBODY") "f.txt"
      = .file (.str "f.txt".data) (splitEnvelope (strBytes "\x7b\"ok\":true\x7d\n\nBODY")).2 :=
  frb_c10 (strBytes "\x7b\"ok\":true\x7d\n\nBODY") "f.txt" [("ok".data, .bool true)] rfl rfl rfl
